import Mathlib

/-!
Verification of the B2B invoice/line-item reconstruction in `src/app.py`
(the "B2B SECTION", lines 116-219).

The reconstruction takes one flat sheet (a pandas DataFrame built by
concatenating all files of the B2B folder), forward-fills the
"Voucher No." and "Particulars" columns, classifies rows into item lines,
and builds one invoice record per distinct non-null voucher number.

Shallow-embedding conventions:
* a cell is `Option String` (`none` models a pandas NaN / missing value);
* a sheet is a list of rows together with a record of which columns are
  present (`raw.columns` membership tests in the source become Boolean
  flags; a field of an absent column is never read by the pipeline, each
  read is guarded exactly where the source tests `in raw.columns`);
* pandas floats produced by `pd.to_numeric` / `float` are modelled as
  exact decimal numbers `Dec` (an integer mantissa over a power-of-ten
  scale -- the amounts in these sheets are decimal strings, and none of
  the verified claims depends on binary floating-point rounding), with
  `none` standing for NaN; `pd.to_numeric(errors="coerce")` and Python
  `float()` are modelled by `parseDecimal` (optional sign, integer and
  fractional digit parts, surrounding whitespace ignored; exotic float
  spellings such as exponents or infinities are not modelled, the special
  string "nan" -- which `float` accepts, producing NaN -- is handled where
  it matters, in `grossTotalFallback`);
* `pd.to_datetime` is not modelled: date cells are carried through as raw
  strings, which is faithful for every claim here (the claims only concern
  which row a date is taken from, never its parsed value);
* the source's `value_col` scan over ["Value", "Line Value", "Amount",
  "Gross Total"] is modelled over the two candidate columns the data model
  carries ("Value" and "Gross Total").
-/

namespace B2B

/-- One row of the raw sheet.  Each field is one of the columns the B2B
code reads; `none` is a missing value (pandas NaN). -/
structure RawRow where
  date : Option String
  particulars : Option String
  voucherNo : Option String
  quantity : Option String
  rate : Option String
  value : Option String
  grossTotal : Option String
deriving DecidableEq

/-- Which columns are present in the sheet (`c in raw.columns` tests). -/
structure Columns where
  hasDate : Bool
  hasVoucherNo : Bool
  hasParticulars : Bool
  hasQuantity : Bool
  hasRate : Bool
  hasValue : Bool
  hasGrossTotal : Bool
deriving DecidableEq

/-- The input sheet: column-presence flags plus the rows in file order. -/
structure Sheet where
  cols : Columns
  rows : List RawRow
deriving DecidableEq

/-! ### Numeric cleanup (lines 166-176 and 200-206 of `src/app.py`) -/

/-- One pass of Python `str.replace("Dr", "", regex=False)`: remove every
non-overlapping occurrence of `Dr`, scanning left to right and continuing
after each removed occurrence (removed text never re-joins with already
emitted output). -/
def stripDr : List Char → List Char
  | [] => []
  | 'D' :: 'r' :: rest => stripDr rest
  | c :: rest => c :: stripDr rest

/-- One pass of Python `str.replace("Cr", "", regex=False)`. -/
def stripCr : List Char → List Char
  | [] => []
  | 'C' :: 'r' :: rest => stripCr rest
  | c :: rest => c :: stripCr rest

/-- One pass of Python `str.replace(",", "", regex=False)`. -/
def stripComma : List Char → List Char
  | [] => []
  | ',' :: rest => stripComma rest
  | c :: rest => c :: stripComma rest

/-- The shared amount cleanup: `.replace("Dr","").replace("Cr","")
.replace(",","")`, in source order (first all `Dr`, then all `Cr`, then
all commas). -/
def cleanAmountStr (s : String) : String :=
  ⟨stripComma (stripCr (stripDr s.toList))⟩

/-- Base-10 value of a digit string. -/
def digitsToNat (ds : List Char) : Nat :=
  ds.foldl (fun acc c => acc * 10 + (c.toNat - 48)) 0

/-- An exact decimal number: `num / 10 ^ exp`.  Stands for the float
values the source manipulates; the sheets carry decimal strings and no
verified claim depends on binary rounding. -/
structure Dec where
  num : Int
  exp : Nat
deriving DecidableEq

/-- `10 ^ n` as an integer, by structural recursion (kernel-reducible). -/
def pow10 : Nat → Int
  | 0 => 1
  | n + 1 => 10 * pow10 n

/-- The decimal zero (`0.0`). -/
def Dec.zero : Dec := { num := 0, exp := 0 }

/-- Decimal negation. -/
def Dec.neg (a : Dec) : Dec := { num := -a.num, exp := a.exp }

/-- Decimal addition: align the scales, add the mantissas. -/
def Dec.add (a b : Dec) : Dec :=
  { num := a.num * pow10 (max a.exp b.exp - a.exp) +
           b.num * pow10 (max a.exp b.exp - b.exp),
    exp := max a.exp b.exp }

/-- The float test `x == 0`. -/
def Dec.isZero (a : Dec) : Bool := a.num == 0

/-- Unsigned decimal literal: digits, optionally a point and more digits,
at least one digit overall. -/
def parseUnsigned (cs : List Char) : Option Dec :=
  let ip := cs.takeWhile Char.isDigit
  match cs.dropWhile Char.isDigit with
  | [] =>
    if ip.isEmpty then none
    else some { num := (digitsToNat ip : Int), exp := 0 }
  | '.' :: fp =>
    if fp.all Char.isDigit && !(ip.isEmpty && fp.isEmpty) then
      some { num := (digitsToNat ip : Int) * pow10 fp.length + (digitsToNat fp : Int),
             exp := fp.length }
    else none
  | _ => none

/-- Strip leading and trailing whitespace (Python numeric parsing ignores
surrounding whitespace). -/
def trimWs (cs : List Char) : List Char :=
  ((cs.dropWhile Char.isWhitespace).reverse.dropWhile Char.isWhitespace).reverse

/-- Decimal parsing as performed by `pd.to_numeric(errors="coerce")` and
`float`: optional sign then an unsigned decimal literal; `none` on
failure (the NaN result of `errors="coerce"`). -/
def parseDecimal (s : String) : Option Dec :=
  match trimWs s.toList with
  | '-' :: rest => (parseUnsigned rest).map Dec.neg
  | '+' :: rest => parseUnsigned rest
  | cs => parseUnsigned cs

/-- `LineValueNumeric` for one cell (line 167-168): a missing cell stays
missing (`astype(str)` turns NaN into "nan", which `to_numeric` coerces
back to NaN); otherwise clean then parse. -/
def lineValueNumeric (cell : Option String) : Option Dec :=
  match cell with
  | none => none
  | some s => parseDecimal (cleanAmountStr s)

/-- First maximal run of decimal digits, the semantics of
`.str.extract(r'(\d+)')` (leftmost match of one-or-more digits). -/
def firstDigitRun (cs : List Char) : List Char :=
  (cs.dropWhile (fun c => !c.isDigit)).takeWhile Char.isDigit

/-- `QuantityNumeric` for one cell (lines 173-174): extract the first
digit run and read it as a number; missing cell or no digits gives NaN. -/
def quantityNumeric (cell : Option String) : Option Nat :=
  match cell with
  | none => none
  | some s =>
    match firstDigitRun s.toList with
    | [] => none
    | ds => some (digitsToNat ds)

/-! ### Forward fill (lines 130-132) -/

/-- `ffill` step for one cell: keep an explicit value, otherwise inherit
the carried one. -/
def fillCell (last cell : Option String) : Option String :=
  match cell with
  | some x => some x
  | none => last

/-- Forward-fill of the "Voucher No." and "Particulars" columns, carrying
the last non-null value of each down the row sequence. -/
def ffillRowsAux (lastV lastP : Option String) : List RawRow → List RawRow
  | [] => []
  | r :: rs =>
    { r with voucherNo := fillCell lastV r.voucherNo,
             particulars := fillCell lastP r.particulars }
      :: ffillRowsAux (fillCell lastV r.voucherNo) (fillCell lastP r.particulars) rs

/-- `raw["Voucher No."] = raw["Voucher No."].ffill()` and the same for
"Particulars": forward fill starting with nothing carried. -/
def ffillRows (rows : List RawRow) : List RawRow :=
  ffillRowsAux none none rows

/-! ### Row classification (lines 142-176) -/

/-- The `value_col` scan (lines 142-146) restricted to the two candidate
columns of the data model: "Value" wins over "Gross Total". -/
inductive ValueCol
  | value
  | grossTotal
deriving DecidableEq

/-- Pick the value column as the source does (first present candidate). -/
def pickValueCol (c : Columns) : Option ValueCol :=
  if c.hasValue then some ValueCol.value
  else if c.hasGrossTotal then some ValueCol.grossTotal
  else none

/-- `item_mask` (lines 149-157): start from False, or in `Value` non-null
and `Quantity` non-null when those columns exist, then clear rows whose
`Gross Total` is non-null when that column exists.  Note: `Rate` is never
consulted. -/
def itemMask (c : Columns) (r : RawRow) : Bool :=
  let m := (c.hasValue && r.value.isSome) || (c.hasQuantity && r.quantity.isSome)
  if c.hasGrossTotal then m && !r.grossTotal.isSome else m

/-- `LineValueNumeric` of an item row (lines 166-170): clean and parse the
chosen value column, `pd.NA` when there is none. -/
def itemLineValue (c : Columns) (r : RawRow) : Option Dec :=
  match pickValueCol c with
  | none => none
  | some ValueCol.value => lineValueNumeric r.value
  | some ValueCol.grossTotal => lineValueNumeric r.grossTotal

/-- `QuantityNumeric` of an item row (lines 172-176).  When the sheet has
no "Quantity" column the ensure-columns loop (lines 161-163) creates an
all-NaN one, so the extraction yields NaN. -/
def itemQuantity (c : Columns) (r : RawRow) : Option Nat :=
  if c.hasQuantity then quantityNumeric r.quantity else none

/-- One row of `items_df`: the (forward-filled) raw row plus the two
derived numeric columns. -/
structure ItemRow where
  row : RawRow
  lineValueNum : Option Dec
  quantityNum : Option Nat
deriving DecidableEq

/-! ### Invoice construction (lines 178-219) -/

/-- One record of `invoices_df` (lines 211-217). -/
structure Invoice where
  date : Option String
  vendor : Option String
  voucherNo : String
  itemCount : Nat
  invoiceTotal : Option Dec
deriving DecidableEq

/-- Order-preserving first-occurrence deduplication, the semantics of
`Series.unique()` (line 180); `seen` accumulates values already kept. -/
def uniqueFirstAux (seen : List String) : List String → List String
  | [] => []
  | x :: xs =>
    if x ∈ seen then uniqueFirstAux seen xs
    else x :: uniqueFirstAux (x :: seen) xs

/-- `raw["Voucher No."].dropna().unique().tolist()` applied to an already
null-filtered list. -/
def uniqueFirst (xs : List String) : List String :=
  uniqueFirstAux [] xs

/-- Python `str()` of a cell: NaN prints as "nan" (line 201 applies `str`
before the replace chain). -/
def pyStr (cell : Option String) : String :=
  match cell with
  | none => "nan"
  | some s => s

/-- The header gross-total fallback (lines 200-208): clean the header's
"Gross Total" as text and `float` it; `float("nan")` succeeds and gives
NaN (modelled `none`), any other parse failure is caught and replaced by
`0.0`; a sheet without the column goes straight to `0.0`. -/
def grossTotalFallback (c : Columns) (header : RawRow) : Option Dec :=
  if c.hasGrossTotal then
    let gt := cleanAmountStr (pyStr header.grossTotal)
    if gt = "nan" then none
    else
      match parseDecimal gt with
      | some q => some q
      | none => some Dec.zero
  else some Dec.zero

/-- `Series.sum(min_count=1)`: skip NaN entries; NaN when no entry is
left. -/
def sumMinCount1 (xs : List (Option Dec)) : Option Dec :=
  match xs.filterMap id with
  | [] => none
  | vs => some (vs.foldl Dec.add Dec.zero)

/-- Lines 197-208: the item-line sum, overridden by the header gross
total whenever it is NaN or exactly zero. -/
def computeInvoiceTotal (c : Columns) (header : RawRow) (vals : List (Option Dec)) : Option Dec :=
  match sumMinCount1 vals with
  | none => grossTotalFallback c header
  | some t => if t.isZero then grossTotalFallback c header else some t

/-- All-null row, stands for the `iloc[0]` of a group that cannot be
empty (every voucher in `voucher_list` occurs in some row). -/
def dummyRow : RawRow :=
  { date := none, particulars := none, voucherNo := none,
    quantity := none, rate := none, value := none, grossTotal := none }

/-- `inv_rows` (line 183): the rows whose forward-filled voucher number
equals `v` -- the voucher's group. -/
def voucherGroup (filled : List RawRow) (v : String) : List RawRow :=
  filled.filter (fun r => r.voucherNo == some v)

/-- Lines 184-189: the header row of voucher `v` -- the first group row
with a non-null "Gross Total" when the column exists and such a row
exists, otherwise the first row of the group (`iloc[0]`, total for the
non-empty groups this is applied to). -/
def headerOf (c : Columns) (filled : List RawRow) (v : String) : RawRow :=
  match (if c.hasGrossTotal then
           (voucherGroup filled v).filter (fun r => r.grossTotal.isSome)
         else []) with
  | h :: _ => h
  | [] => (voucherGroup filled v).headD dummyRow

/-- `inv_items` (line 194): the item rows whose forward-filled voucher
number equals `v`. -/
def invItems (items : List ItemRow) (v : String) : List ItemRow :=
  items.filter (fun it => it.row.voucherNo == some v)

/-- Lines 182-217: build one invoice record for voucher `v` from the
forward-filled rows and the items table. -/
def mkInvoice (c : Columns) (filled : List RawRow) (items : List ItemRow) (v : String) : Invoice :=
  let header := headerOf c filled v
  { date := if c.hasDate then header.date else none
    vendor := header.particulars
    voucherNo := v
    itemCount := (invItems items v).length
    invoiceTotal := computeInvoiceTotal c header ((invItems items v).map ItemRow.lineValueNum) }

/-- The two output tables. -/
structure Output where
  invoices : List Invoice
  items : List ItemRow
deriving DecidableEq

/-- The forward-filled sheet rows (lines 130-132). -/
def filledOf (s : Sheet) : List RawRow :=
  ffillRows s.rows

/-- `items_df` (lines 159-176): the masked rows with their derived
numeric columns. -/
def itemsOf (s : Sheet) : List ItemRow :=
  ((filledOf s).filter (fun r => itemMask s.cols r)).map
    (fun r => { row := r, lineValueNum := itemLineValue s.cols r,
                quantityNum := itemQuantity s.cols r : ItemRow })

/-- `voucher_list` (line 180): distinct forward-filled voucher numbers in
first-appearance order. -/
def vouchersOf (s : Sheet) : List String :=
  uniqueFirst ((filledOf s).filterMap RawRow.voucherNo)

/-- The whole B2B reconstruction (lines 126-219): require the
"Voucher No." and "Particulars" columns (lines 126-128 stop with an error
otherwise), forward-fill them, build `items_df` from the item mask and
`invoices_df` from the distinct voucher numbers. -/
def reconstruct (s : Sheet) : Except String Output :=
  if s.cols.hasVoucherNo && s.cols.hasParticulars then
    Except.ok { invoices := (vouchersOf s).map (fun v => mkInvoice s.cols (filledOf s) (itemsOf s) v),
                items := itemsOf s }
  else
    Except.error "B2B files must include Voucher No. and Particulars columns."

/-! ### Basic lemmas about the embedded operations -/

theorem ffillRowsAux_length (lv lp : Option String) (rows : List RawRow) :
    (ffillRowsAux lv lp rows).length = rows.length := by
  induction rows generalizing lv lp with
  | nil => rfl
  | cons r rs ih => simp [ffillRowsAux, ih]

theorem itemMask_update (c : Columns) (r : RawRow) (v p : Option String) :
    itemMask c { r with voucherNo := v, particulars := p } = itemMask c r := rfl

theorem ffillRowsAux_map_itemMask (c : Columns) (lv lp : Option String) (rows : List RawRow) :
    (ffillRowsAux lv lp rows).map (itemMask c) = rows.map (itemMask c) := by
  induction rows generalizing lv lp with
  | nil => rfl
  | cons r rs ih => simp [ffillRowsAux, itemMask_update, ih]

theorem mem_filterMap_voucher_tail {v : String} {r : RawRow} {rs : List RawRow}
    (h : v ∈ rs.filterMap RawRow.voucherNo) :
    v ∈ (r :: rs).filterMap RawRow.voucherNo := by
  rw [List.mem_filterMap] at h ⊢
  exact ⟨h.choose, List.mem_cons_of_mem _ h.choose_spec.1, h.choose_spec.2⟩

theorem mem_ffillRowsAux_voucher {v : String} {lv lp : Option String} {rows : List RawRow} :
    v ∈ (ffillRowsAux lv lp rows).filterMap RawRow.voucherNo →
      lv = some v ∨ v ∈ rows.filterMap RawRow.voucherNo := by
  induction rows generalizing lv lp with
  | nil => simp [ffillRowsAux]
  | cons r rs ih =>
    intro hmem
    cases hr : r.voucherNo with
    | some w =>
      rw [ffillRowsAux] at hmem
      simp only [hr, fillCell, List.filterMap_cons] at hmem
      simp only [List.mem_cons] at hmem
      rcases hmem with h | h
      · exact Or.inr (List.mem_filterMap.mpr ⟨r, List.mem_cons_self .., by rw [hr, h]⟩)
      · rcases ih h with h2 | h2
        · exact Or.inr (List.mem_filterMap.mpr ⟨r, List.mem_cons_self .., by rw [hr, h2]⟩)
        · exact Or.inr (mem_filterMap_voucher_tail h2)
    | none =>
      rw [ffillRowsAux] at hmem
      simp only [hr, fillCell, List.filterMap_cons] at hmem
      cases hlv : lv with
      | none =>
        rw [hlv] at hmem
        rcases ih hmem with h2 | h2
        · exact absurd h2 (by simp)
        · exact Or.inr (mem_filterMap_voucher_tail h2)
      | some x =>
        subst hlv
        rcases List.mem_cons.mp hmem with h | h
        · exact Or.inl (by rw [h])
        · rcases ih h with h2 | h2
          · exact Or.inl h2
          · exact Or.inr (mem_filterMap_voucher_tail h2)

theorem mem_ffillRowsAux_of_mem {v : String} (lv lp : Option String) {rows : List RawRow} :
    v ∈ rows.filterMap RawRow.voucherNo →
      v ∈ (ffillRowsAux lv lp rows).filterMap RawRow.voucherNo := by
  induction rows generalizing lv lp with
  | nil => simp
  | cons r rs ih =>
    intro hmem
    rw [List.filterMap_cons] at hmem
    rw [ffillRowsAux, List.filterMap_cons]
    cases hr : r.voucherNo with
    | some w =>
      rw [hr] at hmem
      simp only [hr, fillCell]
      rcases List.mem_cons.mp hmem with h | h
      · exact h ▸ List.mem_cons_self ..
      · exact List.mem_cons_of_mem _ (ih _ _ h)
    | none =>
      rw [hr] at hmem
      simp only [hr, fillCell]
      cases lv with
      | none => exact ih _ _ hmem
      | some x => exact List.mem_cons_of_mem _ (ih _ _ hmem)

theorem mem_ffillRows_voucher_iff {v : String} {rows : List RawRow} :
    v ∈ (ffillRows rows).filterMap RawRow.voucherNo ↔
      v ∈ rows.filterMap RawRow.voucherNo := by
  constructor
  · intro h
    rcases mem_ffillRowsAux_voucher h with h2 | h2
    · exact absurd h2 (by simp)
    · exact h2
  · exact mem_ffillRowsAux_of_mem none none

theorem mem_uniqueFirstAux {x : String} {seen xs : List String} :
    x ∈ uniqueFirstAux seen xs ↔ x ∈ xs ∧ x ∉ seen := by
  induction xs generalizing seen with
  | nil => simp [uniqueFirstAux]
  | cons y ys ih =>
    by_cases hy : y ∈ seen
    · rw [uniqueFirstAux, if_pos hy, ih]
      constructor
      · exact fun ⟨h1, h2⟩ => ⟨List.mem_cons_of_mem _ h1, h2⟩
      · rintro ⟨h1, h2⟩
        rcases List.mem_cons.mp h1 with h | h
        · exact absurd (h ▸ hy) h2
        · exact ⟨h, h2⟩
    · rw [uniqueFirstAux, if_neg hy]
      constructor
      · intro hmem
        rcases List.mem_cons.mp hmem with h | h
        · exact ⟨List.mem_cons.mpr (Or.inl h), h ▸ hy⟩
        · rcases ih.mp h with ⟨h1, h2⟩
          exact ⟨List.mem_cons_of_mem _ h1,
                 fun hxs => h2 (List.mem_cons_of_mem _ hxs)⟩
      · rintro ⟨h1, h2⟩
        rcases List.mem_cons.mp h1 with h | h
        · exact List.mem_cons.mpr (Or.inl h)
        · by_cases hxy : x = y
          · exact List.mem_cons.mpr (Or.inl hxy)
          · refine List.mem_cons_of_mem _ (ih.mpr ⟨h, fun hxs => ?_⟩)
            rcases List.mem_cons.mp hxs with h3 | h3
            · exact hxy h3
            · exact h2 h3

theorem nodup_uniqueFirstAux (seen xs : List String) :
    (uniqueFirstAux seen xs).Nodup := by
  induction xs generalizing seen with
  | nil => simp [uniqueFirstAux]
  | cons y ys ih =>
    by_cases hy : y ∈ seen
    · rw [uniqueFirstAux, if_pos hy]; exact ih seen
    · rw [uniqueFirstAux, if_neg hy, List.nodup_cons]
      refine ⟨fun hmem => ?_, ih _⟩
      exact (mem_uniqueFirstAux.mp hmem).2 (List.mem_cons_self ..)

theorem uniqueFirstAux_eq_nil {seen xs : List String} :
    uniqueFirstAux seen xs = [] ↔ ∀ x ∈ xs, x ∈ seen := by
  induction xs generalizing seen with
  | nil => simp [uniqueFirstAux]
  | cons y ys ih =>
    by_cases hy : y ∈ seen
    · rw [uniqueFirstAux, if_pos hy, ih]
      constructor
      · intro h x hx
        rcases List.mem_cons.mp hx with h2 | h2
        · exact h2 ▸ hy
        · exact h x h2
      · intro h x hx
        exact h x (List.mem_cons_of_mem _ hx)
    · rw [uniqueFirstAux, if_neg hy]
      simp only [List.cons_ne_nil, false_iff]
      intro h
      exact hy (h y (List.mem_cons_self ..))

theorem uniqueFirstAux_ffill {rows : List RawRow} {lv lp : Option String} {seen : List String}
    (hlv : ∀ x, lv = some x → x ∈ seen) :
    uniqueFirstAux seen ((ffillRowsAux lv lp rows).filterMap RawRow.voucherNo) =
      uniqueFirstAux seen (rows.filterMap RawRow.voucherNo) := by
  induction rows generalizing lv lp seen with
  | nil => rfl
  | cons r rs ih =>
    rw [ffillRowsAux, List.filterMap_cons, List.filterMap_cons]
    cases hr : r.voucherNo with
    | some w =>
      simp only [fillCell]
      by_cases hw : w ∈ seen
      · rw [uniqueFirstAux, if_pos hw, uniqueFirstAux, if_pos hw]
        exact ih (fun x hx => (Option.some_inj.mp hx) ▸ hw)
      · rw [uniqueFirstAux, if_neg hw, uniqueFirstAux, if_neg hw]
        congr 1
        exact ih (fun x hx => (Option.some_inj.mp hx) ▸ List.mem_cons_self ..)
    | none =>
      simp only [fillCell]
      cases hlv2 : lv with
      | none => exact ih (by simp)
      | some x =>
        have hx := hlv x hlv2
        rw [uniqueFirstAux, if_pos hx]
        exact ih (fun y hy => (Option.some_inj.mp hy) ▸ hx)

/-- Spec-side notion for forward fill: the value carried into a position
is the last non-null value of the prefix, starting from `lv`. -/
def lastSomeFrom (lv : Option String) : List String → Option String
  | [] => lv
  | x :: xs => lastSomeFrom (some x) xs

theorem getLast?_cons_of_getLast? {α : Type} {xs : List α} {x y : α}
    (h : xs.getLast? = some y) : (x :: xs).getLast? = some y := by
  cases xs with
  | nil => simp at h
  | cons a l => rw [List.getLast?_cons_cons]; exact h

theorem lastSomeFrom_eq_getLast? (l : List String) (lv : Option String) :
    lastSomeFrom lv l =
      (match l.getLast? with
       | none => lv
       | some y => some y) := by
  induction l generalizing lv with
  | nil => rfl
  | cons x xs ih =>
    rw [lastSomeFrom, ih]
    cases hxs : xs.getLast? with
    | none =>
      have hx : xs = [] := List.getLast?_eq_none_iff.mp hxs
      subst hx
      simp
    | some y => rw [getLast?_cons_of_getLast? hxs]

theorem ffillRowsAux_get (rows : List RawRow) (lv lp : Option String) (i : Nat)
    (h : i < rows.length) :
    ((ffillRowsAux lv lp rows).map RawRow.voucherNo)[i]? =
      some (lastSomeFrom lv (((rows.map RawRow.voucherNo).take (i+1)).filterMap id)) ∧
    ((ffillRowsAux lv lp rows).map RawRow.particulars)[i]? =
      some (lastSomeFrom lp (((rows.map RawRow.particulars).take (i+1)).filterMap id)) := by
  induction rows generalizing lv lp i with
  | nil => cases h
  | cons r rs ih =>
    cases i with
    | zero =>
      constructor
      · cases hr : r.voucherNo <;>
          simp [ffillRowsAux, hr, fillCell, lastSomeFrom, List.take_succ_cons,
                List.filterMap_cons]
      · cases hp : r.particulars <;>
          simp [ffillRowsAux, hp, fillCell, lastSomeFrom, List.take_succ_cons,
                List.filterMap_cons]
    | succ j =>
      have hj : j < rs.length := Nat.lt_of_succ_lt_succ h
      obtain ⟨ih1, ih2⟩ := ih (fillCell lv r.voucherNo) (fillCell lp r.particulars) j hj
      constructor
      · rw [ffillRowsAux, List.map_cons, List.getElem?_cons_succ, ih1]
        congr 1
        cases hr : r.voucherNo <;>
          simp [fillCell, lastSomeFrom, hr, List.take_succ_cons, List.filterMap_cons]
      · rw [ffillRowsAux, List.map_cons, List.getElem?_cons_succ, ih2]
        congr 1
        cases hp : r.particulars <;>
          simp [fillCell, lastSomeFrom, hp, List.take_succ_cons, List.filterMap_cons]

theorem sumMinCount1_cons_none (xs : List (Option Dec)) :
    sumMinCount1 (none :: xs) = sumMinCount1 xs := rfl

theorem sumMinCount1_eq_some {xs : List (Option Dec)} (h : xs.filterMap id ≠ []) :
    sumMinCount1 xs = some ((xs.filterMap id).foldl Dec.add Dec.zero) := by
  rw [sumMinCount1]
  cases hf : xs.filterMap id with
  | nil => exact absurd hf h
  | cons a l => rfl

/-- Row classification as amended: a row is an item line iff it has a
non-null quantity or a non-null value cell (in a present column) and no
non-null gross-total cell; `Rate` plays no part. -/
def amendedLineItem (c : Columns) (r : RawRow) : Bool :=
  ((c.hasQuantity && r.quantity.isSome) || (c.hasValue && r.value.isSome)) &&
    !(c.hasGrossTotal && r.grossTotal.isSome)

/-- Row classification exactly as claim C2 words it: non-null in at least
one of quantity, rate, value, and no non-null header marker. -/
def claimLineItem (c : Columns) (r : RawRow) : Bool :=
  ((c.hasQuantity && r.quantity.isSome) || (c.hasRate && r.rate.isSome) ||
    (c.hasValue && r.value.isSome)) &&
    !(c.hasGrossTotal && r.grossTotal.isSome)

theorem itemMask_eq_amended (c : Columns) (r : RawRow) :
    itemMask c r = amendedLineItem c r := by
  unfold itemMask amendedLineItem
  cases hg : c.hasGrossTotal <;>
    simp [Bool.or_comm, Bool.and_true]

theorem dropWhile_append_of_all {p : Char → Bool} {l1 l2 : List Char}
    (h : ∀ c ∈ l1, p c = true) :
    (l1 ++ l2).dropWhile p = l2.dropWhile p := by
  induction l1 with
  | nil => rfl
  | cons a l ih =>
    rw [List.cons_append, List.dropWhile_cons_of_pos (h a (List.mem_cons_self ..))]
    exact ih (fun c hc => h c (List.mem_cons_of_mem _ hc))

theorem takeWhile_append_of_all {p : Char → Bool} {l1 l2 : List Char}
    (h1 : ∀ c ∈ l1, p c = true)
    (h2 : ∀ c, l2.head? = some c → p c = false) :
    (l1 ++ l2).takeWhile p = l1 := by
  induction l1 with
  | nil =>
    cases l2 with
    | nil => rfl
    | cons b t =>
      rw [List.nil_append, List.takeWhile_cons_of_neg]
      simp [h2 b rfl]
  | cons a l ih =>
    rw [List.cons_append, List.takeWhile_cons_of_pos (h1 a (List.mem_cons_self ..))]
    rw [ih (fun c hc => h1 c (List.mem_cons_of_mem _ hc))]

theorem filter_voucher_length_one {l : List Invoice} {vs : List String} {v : String}
    (hmap : l.map Invoice.voucherNo = vs) (hnd : vs.Nodup) (hv : v ∈ vs) :
    (l.filter (fun inv => inv.voucherNo == v)).length = 1 := by
  induction l generalizing vs with
  | nil => subst hmap; cases hv
  | cons i l ih =>
    subst hmap
    rw [List.map_cons, List.nodup_cons] at hnd
    rw [List.map_cons] at hv
    by_cases hiv : i.voucherNo = v
    · rw [List.filter_cons_of_pos (by simp [hiv]), List.length_cons]
      have hnone : ∀ j ∈ l, ¬((fun inv => inv.voucherNo == v) j = true) := by
        intro j hj hjv
        simp only [beq_iff_eq] at hjv
        exact hnd.1 (hiv ▸ hjv ▸ List.mem_map.mpr ⟨j, hj, rfl⟩)
      rw [List.filter_eq_nil_iff.mpr hnone]
      rfl
    · rw [List.filter_cons_of_neg (by simp [hiv])]
      have hv' : v ∈ l.map Invoice.voucherNo := by
        rcases List.mem_cons.mp hv with h | h
        · exact absurd h.symm hiv
        · exact h
      exact ih rfl hnd.2 hv'

/-! ### Destructuring the pipeline -/

theorem reconstruct_ok {s : Sheet} {o : Output} (h : reconstruct s = Except.ok o) :
    o.invoices = (vouchersOf s).map (fun v => mkInvoice s.cols (filledOf s) (itemsOf s) v) ∧
    o.items = itemsOf s ∧
    s.cols.hasVoucherNo = true ∧ s.cols.hasParticulars = true := by
  unfold reconstruct at h
  by_cases hc : (s.cols.hasVoucherNo && s.cols.hasParticulars) = true
  · rw [if_pos hc] at h
    injection h with h
    subst h
    rcases Bool.and_eq_true_iff.mp hc with ⟨h1, h2⟩
    exact ⟨rfl, rfl, h1, h2⟩
  · rw [if_neg hc] at h
    exact absurd h (by simp)

theorem mkInvoice_voucherNo (c : Columns) (filled : List RawRow) (items : List ItemRow)
    (v : String) : (mkInvoice c filled items v).voucherNo = v := rfl

theorem mkInvoice_date (c : Columns) (filled : List RawRow) (items : List ItemRow)
    (v : String) :
    (mkInvoice c filled items v).date =
      (if c.hasDate then (headerOf c filled v).date else none) := rfl

theorem mkInvoice_vendor (c : Columns) (filled : List RawRow) (items : List ItemRow)
    (v : String) :
    (mkInvoice c filled items v).vendor = (headerOf c filled v).particulars := rfl

theorem mkInvoice_invoiceTotal (c : Columns) (filled : List RawRow) (items : List ItemRow)
    (v : String) :
    (mkInvoice c filled items v).invoiceTotal =
      computeInvoiceTotal c (headerOf c filled v)
        ((invItems items v).map ItemRow.lineValueNum) := rfl

theorem invoices_map_voucherNo {s : Sheet} {o : Output} (h : reconstruct s = Except.ok o) :
    o.invoices.map Invoice.voucherNo = vouchersOf s := by
  rw [(reconstruct_ok h).1, List.map_map]
  simp only [Function.comp_def, mkInvoice_voucherNo, List.map_id_fun, id]
  exact List.map_id _

/-! ### The header-marker field and the spec's header-row choice -/

/-- The header-marker field of a row: its "Gross Total" cell, null when
the sheet has no such column. -/
def markerOf (c : Columns) (r : RawRow) : Option String :=
  if c.hasGrossTotal then r.grossTotal else none

/-- The header row the spec describes: the first row of the voucher's
group (in file order) whose header-marker field is non-null, or the first
row of the group when no group row has one; `none` only for a voucher
with an empty group. -/
def headerChoice (c : Columns) (filled : List RawRow) (v : String) : Option RawRow :=
  match (voucherGroup filled v).filter (fun r => (markerOf c r).isSome) with
  | h :: _ => some h
  | [] => (voucherGroup filled v).head?

theorem headerChoice_eq_headerOf {c : Columns} {filled : List RawRow} {v : String}
    (hne : voucherGroup filled v ≠ []) :
    headerChoice c filled v = some (headerOf c filled v) := by
  unfold headerChoice headerOf
  have hfilter : (voucherGroup filled v).filter (fun r => (markerOf c r).isSome) =
      (if c.hasGrossTotal then (voucherGroup filled v).filter (fun r => r.grossTotal.isSome)
       else []) := by
    cases hg : c.hasGrossTotal with
    | true =>
      rw [if_pos rfl]
      apply List.filter_congr
      intro r _
      simp [markerOf, hg]
    | false =>
      rw [if_neg (by simp)]
      apply List.filter_eq_nil_iff.mpr
      intro r _
      simp [markerOf, hg]
  rw [hfilter]
  rcases hh : (if c.hasGrossTotal then
      (voucherGroup filled v).filter (fun r => r.grossTotal.isSome) else []) with _ | ⟨h, t⟩
  · rw [hh]
    cases hgrp : voucherGroup filled v with
    | nil => exact absurd hgrp hne
    | cons a l => rfl
  · rw [hh]

theorem voucherGroup_ne_nil {filled : List RawRow} {v : String}
    (h : v ∈ filled.filterMap RawRow.voucherNo) : voucherGroup filled v ≠ [] := by
  rw [List.mem_filterMap] at h
  obtain ⟨r, hr, hrv⟩ := h
  intro hnil
  have : r ∈ voucherGroup filled v := List.mem_filter.mpr ⟨hr, by simp [hrv]⟩
  rw [hnil] at this
  cases this

theorem mem_filterMap_voucher_iff_mem_map {rows : List RawRow} {v : String} :
    v ∈ rows.filterMap RawRow.voucherNo ↔ some v ∈ rows.map RawRow.voucherNo := by
  rw [List.mem_filterMap, List.mem_map]

/-! ### Claim theorems -/

/-- C4: forward fill of the voucher and vendor columns carries the last
non-null value: the filled cell at every position `i` is the last
non-null cell among the first `i + 1` source cells of that column
(`none` when no non-null cell has appeared yet), and a new non-null cell
replaces the carried value.  Stated for both the voucher-number and the
particulars (vendor) column. -/
theorem c4_forward_fill_carries_last_non_null (rows : List RawRow) (i : Nat)
    (h : i < rows.length) :
    ((ffillRows rows).map RawRow.voucherNo)[i]? =
      some ((((rows.map RawRow.voucherNo).take (i+1)).filterMap id).getLast?) ∧
    ((ffillRows rows).map RawRow.particulars)[i]? =
      some ((((rows.map RawRow.particulars).take (i+1)).filterMap id).getLast?) := by
  obtain ⟨h1, h2⟩ := ffillRowsAux_get rows none none i h
  unfold ffillRows
  constructor
  · rw [h1, lastSomeFrom_eq_getLast?]
    cases (((rows.map RawRow.voucherNo).take (i+1)).filterMap id).getLast? <;> rfl
  · rw [h2, lastSomeFrom_eq_getLast?]
    cases (((rows.map RawRow.particulars).take (i+1)).filterMap id).getLast? <;> rfl

/-- All seven columns present. -/
def allCols : Columns :=
  { hasDate := true, hasVoucherNo := true, hasParticulars := true,
    hasQuantity := true, hasRate := true, hasValue := true, hasGrossTotal := true }

/-- A two-row sheet: a header row carrying voucher `V1`, then an item row
with no voucher of its own. -/
def exRowsC4 : List RawRow :=
  [ { date := some "01-01-2024", particulars := some "Acme", voucherNo := some "V1",
      quantity := none, rate := none, value := none, grossTotal := some "10" },
    { date := none, particulars := none, voucherNo := none,
      quantity := none, rate := none, value := some "5", grossTotal := none } ]

/-- Witness for C4 at a concrete input: the second row inherits voucher
`V1` and vendor `Acme` from the first. -/
theorem c4_witness :
    1 < exRowsC4.length ∧
    (((ffillRows exRowsC4).map RawRow.voucherNo)[1]? =
        some ((((exRowsC4.map RawRow.voucherNo).take 2).filterMap id).getLast?) ∧
      ((ffillRows exRowsC4).map RawRow.particulars)[1]? =
        some ((((exRowsC4.map RawRow.particulars).take 2).filterMap id).getLast?)) :=
  ⟨by decide, c4_forward_fill_carries_last_non_null exRowsC4 1 (by decide)⟩

/-- C10: the invoices table lists its records in the order of the first
appearance of each distinct non-null voucher number in the source rows
(`uniqueFirst` keeps the first occurrence of each value, in order). -/
theorem c10_invoices_first_appearance_order :
    ∀ (s : Sheet) (o : Output), reconstruct s = Except.ok o →
      o.invoices.map Invoice.voucherNo = uniqueFirst (s.rows.filterMap RawRow.voucherNo) := by
  intro s o h
  rw [invoices_map_voucherNo h]
  unfold vouchersOf filledOf uniqueFirst ffillRows
  exact uniqueFirstAux_ffill (fun x hx => Option.noConfusion hx)

/-- Whether a reconstruction succeeded (used to discharge witnesses). -/
def isOkOutput : Except String Output → Bool
  | Except.ok _ => true
  | Except.error _ => false

/-- A sheet where voucher `V2` appears before `V1` and both repeat. -/
def exSheetC10 : Sheet :=
  { cols := allCols,
    rows := [
      { date := none, particulars := some "B", voucherNo := some "V2",
        quantity := none, rate := none, value := none, grossTotal := some "7" },
      { date := none, particulars := none, voucherNo := none,
        quantity := none, rate := none, value := some "1", grossTotal := none },
      { date := none, particulars := some "A", voucherNo := some "V1",
        quantity := none, rate := none, value := none, grossTotal := some "9" },
      { date := none, particulars := none, voucherNo := some "V2",
        quantity := none, rate := none, value := some "2", grossTotal := none } ] }

/-- Witness for C10: the invoices of the concrete sheet come out in
first-appearance order `[V2, V1]`. -/
theorem c10_witness :
    ∃ o, reconstruct exSheetC10 = Except.ok o ∧
      o.invoices.map Invoice.voucherNo =
        uniqueFirst (exSheetC10.rows.filterMap RawRow.voucherNo) ∧
      o.invoices.map Invoice.voucherNo = ["V2", "V1"] := by
  have hok : isOkOutput (reconstruct exSheetC10) = true := by decide
  cases ho : reconstruct exSheetC10 with
  | error e => rw [ho] at hok; simp [isOkOutput] at hok
  | ok o =>
    refine ⟨o, rfl, c10_invoices_first_appearance_order exSheetC10 o ho, ?_⟩
    rw [c10_invoices_first_appearance_order exSheetC10 o ho]
    decide

/-- C1: the invoices table holds exactly one invoice per distinct
non-null voucher number seen in the source (the voucher numbers of the
output are duplicate-free, and a voucher number appears among them iff it
appears on some source row), and each invoice's date and vendor are taken
from the header row the spec designates: the first row of the voucher's
group whose header-marker (Gross Total) field is non-null, or the first
row of the group when no such row exists. -/
theorem c1_one_invoice_per_voucher_header_attribution :
    ∀ (s : Sheet) (o : Output), reconstruct s = Except.ok o →
      (o.invoices.map Invoice.voucherNo).Nodup ∧
      (∀ v : String,
        v ∈ o.invoices.map Invoice.voucherNo ↔ some v ∈ s.rows.map RawRow.voucherNo) ∧
      (∀ inv ∈ o.invoices, ∃ h, headerChoice s.cols (filledOf s) inv.voucherNo = some h ∧
        inv.date = (if s.cols.hasDate then h.date else none) ∧
        inv.vendor = h.particulars) := by
  intro s o h
  obtain ⟨hinv, hitems, hV, hP⟩ := reconstruct_ok h
  refine ⟨?_, ?_, ?_⟩
  · rw [invoices_map_voucherNo h]
    exact nodup_uniqueFirstAux _ _
  · intro v
    rw [invoices_map_voucherNo h]
    unfold vouchersOf uniqueFirst
    rw [mem_uniqueFirstAux]
    constructor
    · intro hm
      exact mem_filterMap_voucher_iff_mem_map.mp (mem_ffillRows_voucher_iff.mp hm.1)
    · intro hm
      exact ⟨mem_ffillRows_voucher_iff.mpr (mem_filterMap_voucher_iff_mem_map.mpr hm),
             by simp⟩
  · intro inv hmem
    rw [hinv] at hmem
    rw [List.mem_map] at hmem
    obtain ⟨v, hv, hinv_eq⟩ := hmem
    subst hinv_eq
    rw [mkInvoice_voucherNo]
    have hne : voucherGroup (filledOf s) v ≠ [] := by
      apply voucherGroup_ne_nil
      unfold vouchersOf uniqueFirst at hv
      exact (mem_uniqueFirstAux.mp hv).1
    exact ⟨headerOf s.cols (filledOf s) v, headerChoice_eq_headerOf hne,
           mkInvoice_date .., mkInvoice_vendor ..⟩

/-- Witness for C1: the theorem applied to a concrete two-row sheet. -/
theorem c1_witness :
    ∃ o, reconstruct (Sheet.mk allCols exRowsC4) = Except.ok o ∧
      ((o.invoices.map Invoice.voucherNo).Nodup ∧
       (∀ v : String, v ∈ o.invoices.map Invoice.voucherNo ↔
          some v ∈ (Sheet.mk allCols exRowsC4).rows.map RawRow.voucherNo) ∧
       (∀ inv ∈ o.invoices,
         ∃ h, headerChoice allCols (filledOf (Sheet.mk allCols exRowsC4)) inv.voucherNo = some h ∧
           inv.date = (if allCols.hasDate then h.date else none) ∧
           inv.vendor = h.particulars)) := by
  have hok : isOkOutput (reconstruct (Sheet.mk allCols exRowsC4)) = true := by decide
  cases ho : reconstruct (Sheet.mk allCols exRowsC4) with
  | error e => rw [ho] at hok; simp [isOkOutput] at hok
  | ok o => exact ⟨o, rfl, c1_one_invoice_per_voucher_header_attribution _ o ho⟩

theorem itemMask_fun_eq_amended (c : Columns) :
    itemMask c = amendedLineItem c :=
  funext (itemMask_eq_amended c)

/-- A row that is non-null only in its Rate cell (and voucher number). -/
def exRowC2 : RawRow :=
  { date := none, particulars := none, voucherNo := some "V1",
    quantity := none, rate := some "5", value := none, grossTotal := none }

/-- A one-row sheet whose single row carries only a rate. -/
def exSheetC2 : Sheet :=
  { cols := allCols, rows := [exRowC2] }

/-- The output of `reconstruct` on `exSheetC2`: one invoice (the voucher
is present), no items.  The invoice total is NaN: the item sum is empty
and the header's null gross total goes through `float(str(nan))`. -/
def outC2 : Output :=
  { invoices := [ { date := none, vendor := none, voucherNo := "V1",
                    itemCount := 0, invoiceTotal := none } ],
    items := [] }

/-- C2 counterexample: a row carrying a non-null Rate (and nothing else
besides its voucher) satisfies the claim's line-item condition, yet the
reconstruction classifies it as no item -- the items table is empty.  The
mask never consults Rate. -/
theorem c2_counterexample :
    claimLineItem allCols exRowC2 = true ∧
    reconstruct exSheetC2 = Except.ok outC2 ∧
    outC2.items = [] := by
  refine ⟨by decide, rfl, rfl⟩

/-- C2 amended: a row is classified as a line item iff it carries a
non-null value in at least one of quantity and line value (in a present
column) and no non-null header marker; a non-null rate alone does not
make a row a line item.  The items table consists exactly of the
forward-filled rows passing this test, and the test result at every
position agrees between the forward-filled row and the source row. -/
theorem c2_item_classification :
    ∀ (s : Sheet) (o : Output), reconstruct s = Except.ok o →
      (o.items.map ItemRow.row =
        (ffillRows s.rows).filter (fun r => amendedLineItem s.cols r)) ∧
      (∀ i : Nat,
        ((ffillRows s.rows)[i]?).map (amendedLineItem s.cols) =
          ((s.rows)[i]?).map (amendedLineItem s.cols)) := by
  intro s o h
  constructor
  · rw [(reconstruct_ok h).2.1]
    unfold itemsOf filledOf
    rw [List.map_map]
    have hid : (ItemRow.row ∘ fun r =>
        ({ row := r, lineValueNum := itemLineValue s.cols r,
           quantityNum := itemQuantity s.cols r } : ItemRow)) = id := rfl
    rw [hid, List.map_id]
    simp only [itemMask_eq_amended]
  · intro i
    have hmap := ffillRowsAux_map_itemMask s.cols none none s.rows
    have hpt := congrArg (fun l => l[i]?) hmap
    simp only [List.getElem?_map] at hpt
    rw [itemMask_fun_eq_amended] at hpt
    exact hpt

/-- Witness for C2: the amended classification applied to the concrete
rate-only sheet. -/
theorem c2_witness :
    (outC2.items.map ItemRow.row =
      (ffillRows exSheetC2.rows).filter (fun r => amendedLineItem exSheetC2.cols r)) ∧
    (∀ i : Nat,
      ((ffillRows exSheetC2.rows)[i]?).map (amendedLineItem exSheetC2.cols) =
        ((exSheetC2.rows)[i]?).map (amendedLineItem exSheetC2.cols)) :=
  c2_item_classification exSheetC2 outC2 rfl

/-- A one-row sheet whose header row carries the unparsable gross total
"N/A" and no item rows. -/
def exSheetC3 : Sheet :=
  { cols := allCols,
    rows := [ { date := some "01-01-2024", particulars := some "Acme",
                voucherNo := some "V1", quantity := none, rate := none,
                value := none, grossTotal := some "N/A" } ] }

/-- Output on `exSheetC3`: the invoice total is 0, not null. -/
def outC3 : Output :=
  { invoices := [ { date := some "01-01-2024", vendor := some "Acme",
                    voucherNo := "V1", itemCount := 0, invoiceTotal := some Dec.zero } ],
    items := [] }

/-- C3 counterexample: the cleanup of "N/A" fails to parse, yet the
invoice's total comes out as 0 rather than null -- the gross-total
fallback catches the failure and substitutes 0.0. -/
theorem c3_counterexample :
    parseDecimal (cleanAmountStr "N/A") = none ∧
    reconstruct exSheetC3 = Except.ok outC3 ∧
    outC3.invoices.map Invoice.invoiceTotal = [some Dec.zero] :=
  ⟨by decide, rfl, by decide⟩

/-- C3 amended: the shared cleanup strips the literal substrings Dr, Cr
and comma and then parses a decimal; a line-value cell whose cleaned text
fails to parse becomes null and stays null, the item sum skips null
entries (prepending a null leaves it unchanged, and the empty sum is
null, not 0); but in the header gross-total fallback a cleaned text that
fails to parse (other than the NaN spelling) produces the total 0.0, not
null. -/
theorem c3_numeric_cleanup :
    (∀ s : String, lineValueNumeric (some s) = parseDecimal (cleanAmountStr s)) ∧
    lineValueNumeric none = none ∧
    (∀ xs : List (Option Dec), sumMinCount1 (none :: xs) = sumMinCount1 xs) ∧
    sumMinCount1 [] = none ∧
    (∀ (c : Columns) (r : RawRow) (gt : String), c.hasGrossTotal = true →
      r.grossTotal = some gt → parseDecimal (cleanAmountStr gt) = none →
      cleanAmountStr gt ≠ "nan" → grossTotalFallback c r = some Dec.zero) := by
  refine ⟨fun s => rfl, rfl, sumMinCount1_cons_none, rfl, ?_⟩
  intro c r gt hGT hr hparse hnan
  unfold grossTotalFallback
  rw [if_pos hGT, hr]
  show (if cleanAmountStr (pyStr (some gt)) = "nan" then none
        else match parseDecimal (cleanAmountStr (pyStr (some gt))) with
             | some q => some q
             | none => some Dec.zero) = some Dec.zero
  have hpy : pyStr (some gt) = gt := rfl
  rw [hpy, if_neg hnan, hparse]

/-- Witness for C3: the fallback at the concrete header row with gross
total "N/A" yields 0. -/
theorem c3_witness :
    grossTotalFallback allCols
      { date := some "01-01-2024", particulars := some "Acme",
        voucherNo := some "V1", quantity := none, rate := none,
        value := none, grossTotal := some "N/A" } = some Dec.zero :=
  c3_numeric_cleanup.2.2.2.2 allCols
    { date := some "01-01-2024", particulars := some "Acme",
      voucherNo := some "V1", quantity := none, rate := none,
      value := none, grossTotal := some "N/A" }
    "N/A" rfl rfl (by decide) (by decide)

/-- Header row with gross total "100 Dr" followed by two item rows whose
values sum to exactly zero. -/
def exSheetC5 : Sheet :=
  { cols := allCols,
    rows := [
      { date := some "02-01-2024", particulars := some "Acme", voucherNo := some "V1",
        quantity := none, rate := none, value := none, grossTotal := some "100 Dr" },
      { date := none, particulars := none, voucherNo := none,
        quantity := none, rate := none, value := some "500", grossTotal := none },
      { date := none, particulars := none, voucherNo := none,
        quantity := none, rate := none, value := some "-500", grossTotal := none } ] }

/-- Output on `exSheetC5`: the zero item sum is overridden by the header
gross total 100, and no field retains the computed item sum. -/
def outC5 : Output :=
  { invoices := [ { date := some "02-01-2024", vendor := some "Acme",
                    voucherNo := "V1", itemCount := 2,
                    invoiceTotal := some { num := 100, exp := 0 } } ],
    items := [
      { row := { date := none, particulars := some "Acme", voucherNo := some "V1",
                 quantity := none, rate := none, value := some "500", grossTotal := none },
        lineValueNum := some { num := 500, exp := 0 }, quantityNum := none },
      { row := { date := none, particulars := some "Acme", voucherNo := some "V1",
                 quantity := none, rate := none, value := some "-500", grossTotal := none },
        lineValueNum := some { num := -500, exp := 0 }, quantityNum := none } ] }

/-- C5 counterexample: the items of the single invoice sum to 0 (nulls
excluded), yet the only total the output carries is the header gross
total 100 -- the computed item total is not kept alongside it, one number
overrides the other. -/
theorem c5_counterexample :
    reconstruct exSheetC5 = Except.ok outC5 ∧
    sumMinCount1 (outC5.items.map ItemRow.lineValueNum) = some Dec.zero ∧
    outC5.invoices.map Invoice.invoiceTotal = [some { num := 100, exp := 0 }] :=
  ⟨rfl, by decide, by decide⟩

/-- C5 amended: each invoice carries one single total field.  Whenever
the sum of its items' line values with nulls excluded is non-empty and
nonzero, that field equals the sum; otherwise the field is replaced by
the header gross total (or 0.0 / NaN), so a separate computed total is
not preserved. -/
theorem c5_invoice_total_from_items :
    ∀ (s : Sheet) (o : Output), reconstruct s = Except.ok o →
      ∀ inv ∈ o.invoices,
        ((invItems o.items inv.voucherNo).map ItemRow.lineValueNum).filterMap id ≠ [] →
        ((((invItems o.items inv.voucherNo).map ItemRow.lineValueNum).filterMap id).foldl
            Dec.add Dec.zero).isZero = false →
        inv.invoiceTotal =
          some ((((invItems o.items inv.voucherNo).map ItemRow.lineValueNum).filterMap id).foldl
            Dec.add Dec.zero) := by
  intro s o h inv hmem hne hnz
  obtain ⟨hinv, hitems, _, _⟩ := reconstruct_ok h
  rw [hinv] at hmem
  rw [List.mem_map] at hmem
  obtain ⟨v, hv, hinv_eq⟩ := hmem
  rw [hitems] at hne hnz ⊢
  subst hinv_eq
  rw [mkInvoice_voucherNo] at hne hnz ⊢
  rw [mkInvoice_invoiceTotal]
  unfold computeInvoiceTotal
  rw [sumMinCount1_eq_some hne]
  simp only [hnz, Bool.false_eq_true, if_false]

/-- A header-plus-item sheet with a nonzero item sum. -/
def exSheetHI : Sheet :=
  { cols := allCols, rows := exRowsC4 }

/-- The single item row of `exSheetHI` after forward fill and numeric
derivation. -/
def itHI : ItemRow :=
  { row := { date := none, particulars := some "Acme", voucherNo := some "V1",
             quantity := none, rate := none, value := some "5", grossTotal := none },
    lineValueNum := some { num := 5, exp := 0 }, quantityNum := none }

/-- The single invoice of `exSheetHI`. -/
def invHI : Invoice :=
  { date := some "01-01-2024", vendor := some "Acme", voucherNo := "V1",
    itemCount := 1, invoiceTotal := some { num := 5, exp := 0 } }

/-- Output of `reconstruct` on `exSheetHI`. -/
def outHI : Output :=
  { invoices := [invHI], items := [itHI] }

/-- Witness for C5: on the concrete sheet the invoice total equals the
(nonzero) item sum. -/
theorem c5_witness :
    invHI.invoiceTotal =
      some ((((invItems outHI.items invHI.voucherNo).map ItemRow.lineValueNum).filterMap
        id).foldl Dec.add Dec.zero) :=
  c5_invoice_total_from_items exSheetHI outHI rfl invHI (by decide) (by decide) (by decide)

/-- A sheet whose only row is an item row appearing before any voucher. -/
def exSheetC6 : Sheet :=
  { cols := allCols,
    rows := [ { date := none, particulars := none, voucherNo := none,
                quantity := none, rate := none, value := some "500",
                grossTotal := none } ] }

/-- Output on `exSheetC6`: the orphan item row stays in the items table
(with a null voucher key) and there is no invoice. -/
def outC6 : Output :=
  { invoices := [],
    items := [ { row := { date := none, particulars := none, voucherNo := none,
                          quantity := none, rate := none, value := some "500",
                          grossTotal := none },
                 lineValueNum := some { num := 500, exp := 0 }, quantityNum := none } ] }

/-- C6 counterexample: an item row with no voucher key ever seen before
it is NOT excluded from the items table -- it is kept with a null key
(and nothing counts it); the invoices table is empty. -/
theorem c6_counterexample :
    reconstruct exSheetC6 = Except.ok outC6 ∧
    outC6.items.map (fun it => it.row.voucherNo) = [none] ∧
    outC6.invoices = [] :=
  ⟨rfl, by decide, rfl⟩

/-- C6 amended: every item whose forward-filled voucher key is non-null
matches exactly one invoice (no item references a nonexistent invoice),
and an orphan item (null key) belongs to no invoice's item list;
processing completes without failure either way, though the orphan stays
in the items table and no orphan count is kept. -/
theorem c6_items_reference_unique_invoice :
    ∀ (s : Sheet) (o : Output), reconstruct s = Except.ok o →
      (∀ it ∈ o.items, ∀ v : String, it.row.voucherNo = some v →
        (o.invoices.filter (fun inv => inv.voucherNo == v)).length = 1) ∧
      (∀ it ∈ o.items, it.row.voucherNo = none →
        ∀ v : String, it ∉ invItems o.items v) := by
  intro s o h
  obtain ⟨hinv, hitems, _, _⟩ := reconstruct_ok h
  constructor
  · intro it hit v hitv
    have hrow : it.row ∈ (filledOf s).filter (fun r => itemMask s.cols r) := by
      rw [hitems] at hit
      unfold itemsOf at hit
      rw [List.mem_map] at hit
      obtain ⟨r, hr, hreq⟩ := hit
      rw [← hreq]
      exact hr
    have hfil : it.row ∈ filledOf s := (List.mem_filter.mp hrow).1
    have hvm : v ∈ (filledOf s).filterMap RawRow.voucherNo :=
      List.mem_filterMap.mpr ⟨it.row, hfil, hitv⟩
    have hvv : v ∈ vouchersOf s := mem_uniqueFirstAux.mpr ⟨hvm, by simp⟩
    have hnd : (vouchersOf s).Nodup := nodup_uniqueFirstAux _ _
    exact filter_voucher_length_one (invoices_map_voucherNo h) hnd hvv
  · intro it _ hnone v hmem
    unfold invItems at hmem
    have := (List.mem_filter.mp hmem).2
    rw [hnone] at this
    exact absurd this (by simp)

/-- Witness for C6: the concrete item under voucher `V1` matches exactly
one invoice. -/
theorem c6_witness :
    (outHI.invoices.filter (fun inv => inv.voucherNo == "V1")).length = 1 :=
  (c6_items_reference_unique_invoice exSheetHI outHI rfl).1 itHI (by decide) "V1" (by decide)

theorem filledOf_map_itemMask (s : Sheet) :
    (filledOf s).map (itemMask s.cols) = s.rows.map (itemMask s.cols) :=
  ffillRowsAux_map_itemMask s.cols none none s.rows

/-- A sheet with a voucher and an item row but not a single non-null
gross total. -/
def exSheetC7 : Sheet :=
  { cols := allCols,
    rows := [ { date := none, particulars := some "A", voucherNo := some "V1",
                quantity := none, rate := none, value := some "500",
                grossTotal := none } ] }

/-- Output on `exSheetC7`: an invoice is built although the sheet has no
header row at all. -/
def outC7 : Output :=
  { invoices := [ { date := none, vendor := some "A", voucherNo := "V1",
                    itemCount := 1, invoiceTotal := some { num := 500, exp := 0 } } ],
    items := [ { row := { date := none, particulars := some "A", voucherNo := some "V1",
                          quantity := none, rate := none, value := some "500",
                          grossTotal := none },
                 lineValueNum := some { num := 500, exp := 0 }, quantityNum := none } ] }

/-- C7 counterexample: a sheet on which no row carries a non-null header
marker still produces a non-empty invoices table -- invoices are created
from voucher numbers, not from header rows. -/
theorem c7_counterexample :
    (∀ r ∈ exSheetC7.rows, r.grossTotal = none) ∧
    reconstruct exSheetC7 = Except.ok outC7 ∧
    outC7.invoices ≠ [] :=
  ⟨by decide, rfl, by decide⟩

/-- C7 amended: when no row carries a non-null header marker an invoice
is still created for every distinct non-null voucher number (with header
attributes from the first row of its group): the invoices table is empty
iff no row carries a non-null voucher number, and the items table is
empty iff no row is item-shaped. -/
theorem c7_no_header_rows :
    ∀ (s : Sheet) (o : Output), reconstruct s = Except.ok o →
      (∀ r ∈ s.rows, r.grossTotal = none) →
      ((o.invoices = [] ↔ ∀ r ∈ s.rows, r.voucherNo = none) ∧
       (o.items = [] ↔ ∀ r ∈ s.rows, amendedLineItem s.cols r = false)) := by
  intro s o h _
  obtain ⟨hinv, hitems, _, _⟩ := reconstruct_ok h
  constructor
  · rw [hinv, List.map_eq_nil_iff]
    unfold vouchersOf uniqueFirst
    rw [uniqueFirstAux_eq_nil]
    constructor
    · intro hall r hr
      cases hrv : r.voucherNo with
      | none => rfl
      | some v =>
        exfalso
        have hvm : v ∈ (filledOf s).filterMap RawRow.voucherNo :=
          mem_ffillRowsAux_of_mem none none (List.mem_filterMap.mpr ⟨r, hr, hrv⟩)
        exact absurd (hall v hvm) (by simp)
    · intro hall v hv
      exfalso
      have hv2 := mem_ffillRows_voucher_iff.mp hv
      rw [List.mem_filterMap] at hv2
      obtain ⟨r, hr, hrv⟩ := hv2
      rw [hall r hr] at hrv
      cases hrv
  · rw [hitems]
    unfold itemsOf
    rw [List.map_eq_nil_iff, List.filter_eq_nil_iff]
    constructor
    · intro hall r hr
      have hmem : itemMask s.cols r ∈ (filledOf s).map (itemMask s.cols) := by
        rw [filledOf_map_itemMask]
        exact List.mem_map.mpr ⟨r, hr, rfl⟩
      rw [List.mem_map] at hmem
      obtain ⟨r2, hr2, heq⟩ := hmem
      rw [← itemMask_eq_amended]
      cases hmk : itemMask s.cols r with
      | false => rfl
      | true => exact absurd (heq.trans hmk) (hall r2 hr2)
    · intro hall r2 hr2 hmk2
      have hmem : itemMask s.cols r2 ∈ s.rows.map (itemMask s.cols) := by
        rw [← filledOf_map_itemMask]
        exact List.mem_map.mpr ⟨r2, hr2, rfl⟩
      rw [List.mem_map] at hmem
      obtain ⟨r, hr, heq⟩ := hmem
      have hfa := hall r hr
      rw [← itemMask_eq_amended] at hfa
      rw [heq] at hfa
      rw [hfa] at hmk2
      cases hmk2

/-- Witness for C7: the amended statement at the concrete no-header
sheet. -/
theorem c7_witness :
    (outC7.invoices = [] ↔ ∀ r ∈ exSheetC7.rows, r.voucherNo = none) ∧
    (outC7.items = [] ↔ ∀ r ∈ exSheetC7.rows, amendedLineItem exSheetC7.cols r = false) :=
  c7_no_header_rows exSheetC7 outC7 rfl (by decide)

/-- C8: quantity parsing has first-digit-run semantics: when the raw
string splits as a digit-free prefix, a non-empty run of digits, and a
remainder not starting with a digit, the parsed quantity is the base-10
value of that run; and the quantity is null exactly when the string
contains no digit at all. -/
theorem c8_quantity_first_digit_run :
    ∀ s : String,
      ((∀ c ∈ s.toList, c.isDigit = false) → quantityNumeric (some s) = none) ∧
      (∀ pre run post : List Char,
        s.toList = pre ++ (run ++ post) →
        (∀ c ∈ pre, c.isDigit = false) → run ≠ [] → (∀ c ∈ run, c.isDigit = true) →
        (∀ c, post.head? = some c → c.isDigit = false) →
        quantityNumeric (some s) = some (digitsToNat run)) := by
  intro s
  constructor
  · intro hall
    have hd : firstDigitRun s.toList = [] := by
      unfold firstDigitRun
      have : s.toList.dropWhile (fun c => !c.isDigit) = [] := by
        rw [List.dropWhile_eq_nil_iff]
        intro c hc
        simp [hall c hc]
      rw [this]
      rfl
    simp only [quantityNumeric, hd]
  · intro pre run post hsplit hpre hrun_ne hrun hpost
    have h1 : firstDigitRun s.toList = run := by
      unfold firstDigitRun
      rw [hsplit, dropWhile_append_of_all (fun c hc => by simp [hpre c hc])]
      cases run with
      | nil => exact absurd rfl hrun_ne
      | cons r0 rt =>
        rw [List.cons_append,
            List.dropWhile_cons_of_neg (by simp [hrun r0 (List.mem_cons_self ..)]),
            ← List.cons_append]
        exact takeWhile_append_of_all hrun hpost
    cases hr : run with
    | nil => exact absurd hr hrun_ne
    | cons a l =>
      rw [hr] at h1
      simp only [quantityNumeric, h1]

/-- Witness for C8: "ab12cd3" parses to 12 (the first digit run, not the
leading characters and not the later digits), and "abc" parses to null. -/
theorem c8_witness :
    quantityNumeric (some "ab12cd3") = some (digitsToNat ['1', '2']) ∧
    quantityNumeric (some "abc") = none :=
  ⟨(c8_quantity_first_digit_run "ab12cd3").2 ['a', 'b'] ['1', '2'] ['c', 'd', '3']
      (by decide) (by decide) (by decide) (by decide) (by decide),
   (c8_quantity_first_digit_run "abc").1 (by decide)⟩

/-- A sheet lacking the "Voucher No." column. -/
def exSheetC9 : Sheet :=
  { cols := { allCols with hasVoucherNo := false }, rows := exRowsC4 }

/-- C9 counterexample: with the voucher-key column missing the component
does not complete reconstruction treating it as all-null -- it stops with
an error (`st.error` + `st.stop`, lines 126-128). -/
theorem c9_counterexample :
    reconstruct exSheetC9 =
      Except.error "B2B files must include Voucher No. and Particulars columns." := rfl

/-- C9 amended: reconstruction completes exactly when the "Voucher No."
and "Particulars" columns are both present -- any other column may be
missing and reconstruction still completes (those columns are only ever
read behind presence guards); missing either key column aborts with an
error. -/
theorem c9_missing_columns :
    ∀ s : Sheet, (∃ o, reconstruct s = Except.ok o) ↔
      (s.cols.hasVoucherNo = true ∧ s.cols.hasParticulars = true) := by
  intro s
  unfold reconstruct
  by_cases hc : (s.cols.hasVoucherNo && s.cols.hasParticulars) = true
  · rw [if_pos hc]
    rcases Bool.and_eq_true_iff.mp hc with ⟨h1, h2⟩
    exact ⟨fun _ => ⟨h1, h2⟩, fun _ => ⟨_, rfl⟩⟩
  · rw [if_neg hc]
    constructor
    · rintro ⟨o, ho⟩
      exact Except.noConfusion ho
    · rintro ⟨h1, h2⟩
      exact absurd (by rw [h1, h2]; rfl) hc

/-- Witness for C9: a sheet with every column present completes, matching
the right-hand side of the equivalence. -/
theorem c9_witness :
    (∃ o, reconstruct exSheetHI = Except.ok o) ↔
      (exSheetHI.cols.hasVoucherNo = true ∧ exSheetHI.cols.hasParticulars = true) :=
  c9_missing_columns exSheetHI

end B2B
